import Mathlib

/-!
Verification development for the screenshot re-edit panel
(`complete_panel_with_generation.py`, with `single_file_panel.py` sharing the
same field parser).  The extraction pipeline and the receipt synthesizer are
shallowly embedded over `List Char` / `String`; the regular expressions of the
source are embedded as dedicated scanners that follow Python `re` semantics
(leftmost match, greedy quantifiers) for exactly the patterns the source uses.
External collaborators (PIL decoding, Tesseract, the Gemini service, PNG
encoding) are modelled as parameters or as the data they hand back, since only
the handling of their results is code of this repository.

Notes on fidelity of the regex scanners:
 - All character classes are the ASCII readings of the Python classes
   (inputs in the claims are ASCII; exotic Unicode case foldings of
   re.IGNORECASE are not modelled).
 - Case-insensitive literal letters are matched against the two ASCII cases.
 - Every pattern of the source is backtrack-free in the sense that adjacent
   greedy pieces draw from disjoint character sets, except the bounded
   d{1,2} pieces of the date patterns, whose two-then-one attempt order is
   encoded explicitly in `d12Then`.  Greedy scanning therefore coincides
   with Python backtracking semantics on these patterns.
-/

/-- ASCII whitespace, the characters Python regex class backslash-s covers. -/
def isWsA (c : Char) : Bool :=
  c = ' ' || c = '\t' || c = '\n' || c = '\r' || c = '\x0b' || c = '\x0c'

/-- The character class of a colon or whitespace, Python class [:\s]. -/
def isColonWs (c : Char) : Bool := c = ':' || isWsA c

/-- The character class [0-9,] used by the amount patterns. -/
def isDigitComma (c : Char) : Bool := c.isDigit || c = ','

/-- ASCII word characters, Python regex class backslash-w. -/
def isWordA (c : Char) : Bool := c.isAlphanum || c = '_'

/-- The uppercase twin of a lowercase ASCII letter (used for IGNORECASE). -/
def upperTwin (k : Char) : Char := Char.ofNat (k.toNat - 32)

/-- Case-insensitive match of one text character against one lowercase
pattern letter: re.IGNORECASE on ASCII letters. -/
def ciMatch (k c : Char) : Bool := c = k || c = upperTwin k

/-- Match a literal pattern (given in lowercase) case-insensitively at the
start of the text; return the rest of the text on success. -/
def litCI : List Char → List Char → Option (List Char)
  | [], s => some s
  | _ :: _, [] => none
  | k :: ks, c :: cs => if ciMatch k c then litCI ks cs else none

/-- Does the text start with the given pattern (exact characters)? -/
def startsWithL : List Char → List Char → Bool
  | _, [] => true
  | [], _ :: _ => false
  | c :: cs, p :: ps => c = p && startsWithL cs ps

/-- Python substring containment `pat in s` on char lists. -/
def containsL : List Char → List Char → Bool
  | [], pat => pat.isEmpty
  | c :: cs, pat => startsWithL (c :: cs) pat || containsL cs pat

/-- Python str.lower restricted to ASCII. -/
def lowerL (s : List Char) : List Char := s.map Char.toLower

/-- Python str.strip restricted to ASCII whitespace. -/
def stripL (s : List Char) : List Char :=
  ((s.dropWhile isWsA).reverse.dropWhile isWsA).reverse

/-- Python text.split of a string on the newline character. -/
def splitNl : List Char → List (List Char)
  | [] => [[]]
  | c :: cs =>
    if c = '\n' then [] :: splitNl cs
    else
      match splitNl cs with
      | [] => [[c]]
      | l :: ls => (c :: l) :: ls

/-- Do ten consecutive digits start here? -/
def startsRun10 (l : List Char) : Bool :=
  (l.take 10).all Char.isDigit && (l.take 10).length == 10

/-- re.search of the pattern d{10,}: some position carries a run of at least
ten digits. -/
def hasRun10 : List Char → Bool
  | [] => false
  | c :: cs => startsRun10 (c :: cs) || hasRun10 cs

/-- Generic leftmost search: try the matcher at every position, left to
right, as re.search does. -/
def searchO {α : Type} (m : List Char → Option α) : List Char → Option α
  | [] => m []
  | c :: cs =>
    match m (c :: cs) with
    | some r => some r
    | none => searchO m cs

/-- The tail shared by the four transaction-id patterns: the class [:\s]
repeated, then a captured nonempty alphanumeric run ([A-Za-z0-9]+). -/
def capAlnum (s : List Char) : Option (List Char) :=
  let r := s.dropWhile isColonWs
  let cap := r.takeWhile Char.isAlphanum
  if cap.isEmpty then none else some cap

/-- Pattern TID[:\s]*([A-Za-z0-9]+), IGNORECASE, at one position. -/
def matchTID (s : List Char) : Option (List Char) :=
  (litCI "tid".data s).bind capAlnum

/-- One or more whitespace characters (backslash-s +); rest of text. -/
def wsPlus1 (s : List Char) : Option (List Char) :=
  match s with
  | c :: cs => if isWsA c then some (cs.dropWhile isWsA) else none
  | [] => none

/-- Pattern Transaction\s+ID[:\s]*([A-Za-z0-9]+), IGNORECASE, at one
position. -/
def matchTransID (s : List Char) : Option (List Char) := do
  let r1 ← litCI "transaction".data s
  let r2 ← wsPlus1 r1
  let r3 ← litCI "id".data r2
  capAlnum r3

/-- Pattern Ref[:\s]*([A-Za-z0-9]+), IGNORECASE, at one position. -/
def matchRef (s : List Char) : Option (List Char) :=
  (litCI "ref".data s).bind capAlnum

/-- Pattern Reference[:\s]*([A-Za-z0-9]+), IGNORECASE, at one position. -/
def matchReference (s : List Char) : Option (List Char) :=
  (litCI "reference".data s).bind capAlnum

/-- The ordered transaction-id pattern battery of the source: each pattern is
searched over the whole text before the next is tried (first match wins). -/
def tidSearch (s : List Char) : Option (List Char) :=
  match searchO matchTID s with
  | some c => some c
  | none =>
    match searchO matchTransID s with
    | some c => some c
    | none =>
      match searchO matchRef s with
      | some c => some c
      | none => searchO matchReference s

/-- The captured part ([0-9,]+\.?\d*) preceded by \s*, after a currency
marker. -/
def amountCap (r : List Char) : Option (List Char) :=
  let r2 := r.dropWhile isWsA
  let c1 := r2.takeWhile isDigitComma
  if c1.isEmpty then none
  else
    match r2.dropWhile isDigitComma with
    | '.' :: r4 => some (c1 ++ '.' :: r4.takeWhile Char.isDigit)
    | _ => some c1

/-- The tail \.?\s*([0-9,]+\.?\d*) used after Rs (and inside the fee
patterns). -/
def rsTail (r : List Char) : Option (List Char) :=
  amountCap (match r with | '.' :: t => t | _ => r)

/-- Pattern Rs\.?\s*([0-9,]+\.?\d*), IGNORECASE, at one position. -/
def matchRs (s : List Char) : Option (List Char) :=
  (litCI "rs".data s).bind rsTail

/-- Pattern PKR\s*([0-9,]+\.?\d*), IGNORECASE, at one position. -/
def matchPKR (s : List Char) : Option (List Char) :=
  (litCI "pkr".data s).bind amountCap

/-- Pattern of the rupee sign followed by \s*([0-9,]+\.?\d*), at one
position. -/
def matchSym (s : List Char) : Option (List Char) :=
  match s with
  | '₨' :: r => amountCap r
  | _ => none

/-- The ordered amount pattern battery of the source. -/
def amountSearch (s : List Char) : Option (List Char) :=
  match searchO matchRs s with
  | some c => some c
  | none =>
    match searchO matchPKR s with
    | some c => some c
    | none => searchO matchSym s

/-- Pattern Fee[:\s]*Rs\.?\s*([0-9,]+\.?\d*), IGNORECASE, at one position. -/
def matchFee (s : List Char) : Option (List Char) := do
  let r1 ← litCI "fee".data s
  let r2 ← litCI "rs".data (r1.dropWhile isColonWs)
  rsTail r2

/-- Pattern Charges[:\s]*Rs\.?\s*([0-9,]+\.?\d*), IGNORECASE, at one
position. -/
def matchCharges (s : List Char) : Option (List Char) := do
  let r1 ← litCI "charges".data s
  let r2 ← litCI "rs".data (r1.dropWhile isColonWs)
  rsTail r2

/-- The ordered fee pattern battery of the source. -/
def feeSearch (s : List Char) : Option (List Char) :=
  match searchO matchFee s with
  | some c => some c
  | none => searchO matchCharges s

/-- Bounded piece d{1,2} immediately followed by a fixed non-digit
character, with the Python attempt order (two digits first, then one);
returns the matched characters (digits plus the delimiter) and the rest. -/
def d12Then (c : Char) (s : List Char) : Option (List Char × List Char) :=
  let run := s.takeWhile Char.isDigit
  if run.length = 0 ∨ 3 ≤ run.length then none
  else
    match s.dropWhile Char.isDigit with
    | x :: r => if x = c then some (run ++ [c], r) else none
    | [] => none

/-- Exactly n digits (d{n}); longer digit runs still match their first n
characters, as in Python. -/
def exactDigits (n : Nat) (s : List Char) : Option (List Char × List Char) :=
  let t := s.take n
  if t.length = n ∧ t.all Char.isDigit then some (t, s.drop n) else none

/-- Captured whitespace run \s+ . -/
def wsPlusCap (s : List Char) : Option (List Char × List Char) :=
  let w := s.takeWhile isWsA
  if w.isEmpty then none else some (w, s.dropWhile isWsA)

/-- Captured word run \w+ . -/
def wordPlusCap (s : List Char) : Option (List Char × List Char) :=
  let w := s.takeWhile isWordA
  if w.isEmpty then none else some (w, s.dropWhile isWordA)

/-- Case-insensitive literal that also returns the matched original
characters. -/
def litCIcap : List Char → List Char → Option (List Char × List Char)
  | [], s => some ([], s)
  | _ :: _, [] => none
  | k :: ks, c :: cs =>
    if ciMatch k c then (litCIcap ks cs).map (fun p => (c :: p.1, p.2)) else none

/-- The long-form date body \w+\s+\d{1,2},\s+\d{4}\s+at\s+\d{1,2}:\d{2}
(the capture of the first two date patterns). -/
def dateCore (s : List Char) : Option (List Char) := do
  let (w, r1) ← wordPlusCap s
  let (sp1, r2) ← wsPlusCap r1
  let (d, r3) ← d12Then ',' r2
  let (sp2, r4) ← wsPlusCap r3
  let (y, r5) ← exactDigits 4 r4
  let (sp3, r6) ← wsPlusCap r5
  let (a, r7) ← litCIcap "at".data r6
  let (sp4, r8) ← wsPlusCap r7
  let (h, r9) ← d12Then ':' r8
  let (m, _) ← exactDigits 2 r9
  pure (w ++ sp1 ++ d ++ sp2 ++ y ++ sp3 ++ a ++ sp4 ++ h ++ m)

/-- First date pattern: the long form itself. -/
def matchDate1 (s : List Char) : Option (List Char) := dateCore s

/-- Second date pattern: On\s+ then the long form (capture excludes the
prefix). -/
def matchDate2 (s : List Char) : Option (List Char) := do
  let r1 ← litCI "on".data s
  let r2 ← wsPlus1 r1
  dateCore r2

/-- Third date pattern: (\d{1,2}/\d{1,2}/\d{4}\s+\d{1,2}:\d{2}). -/
def matchDate3 (s : List Char) : Option (List Char) := do
  let (d1, r1) ← d12Then '/' s
  let (d2, r2) ← d12Then '/' r1
  let (y, r3) ← exactDigits 4 r2
  let (w, r4) ← wsPlusCap r3
  let (h, r5) ← d12Then ':' r4
  let (m, _) ← exactDigits 2 r5
  pure (d1 ++ d2 ++ y ++ w ++ h ++ m)

/-- The ordered date pattern battery of the source. -/
def dateSearch (s : List Char) : Option (List Char) :=
  match searchO matchDate1 s with
  | some c => some c
  | none =>
    match searchO matchDate2 s with
    | some c => some c
    | none => searchO matchDate3 s

/-- Phone pattern (\+92\d{10}) at one position. -/
def matchPhone1 (s : List Char) : Option (List Char) :=
  match s with
  | '+' :: '9' :: '2' :: rest =>
    let d := rest.take 10
    if d.length = 10 ∧ d.all Char.isDigit
    then some ('+' :: '9' :: '2' :: d) else none
  | _ => none

/-- Phone pattern (03\d{9}) at one position. -/
def matchPhone2 (s : List Char) : Option (List Char) :=
  match s with
  | '0' :: '3' :: rest =>
    let d := rest.take 9
    if d.length = 9 ∧ d.all Char.isDigit
    then some ('0' :: '3' :: d) else none
  | _ => none

/-- Phone pattern (\d{11}) at one position. -/
def matchPhone3 (s : List Char) : Option (List Char) :=
  let d := s.take 11
  if d.length = 11 ∧ d.all Char.isDigit then some d else none

/-- re.findall: leftmost nonoverlapping matches, continuing after each
match.  Fuel is the text length; every step consumes at least one
character, so the fuel never runs out before the text does (our phone
matchers always consume their whole nonempty capture). -/
def findAllAux (m : List Char → Option (List Char)) :
    Nat → List Char → List (List Char)
  | 0, _ => []
  | _ + 1, [] => []
  | fuel + 1, c :: cs =>
    match m (c :: cs) with
    | some cap => cap :: findAllAux m fuel ((c :: cs).drop (max cap.length 1))
    | none => findAllAux m fuel cs

/-- re.findall over the whole text. -/
def findAll (m : List Char → Option (List Char)) (s : List Char) :
    List (List Char) :=
  findAllAux m s.length s

/-- Deduplication with set semantics (the source inserts all matches into a
Python set; the list order of the set is unspecified, and this model keeps
first occurrences). -/
def dedupAux (seen : List (List Char)) : List (List Char) → List (List Char)
  | [] => []
  | x :: xs =>
    if x ∈ seen then dedupAux seen xs else x :: dedupAux (x :: seen) xs

/-- The three phone patterns applied to the whole text, unioned with set
semantics. -/
def phonesOf (s : List Char) : List String :=
  (dedupAux []
    (findAll matchPhone1 s ++ findAll matchPhone2 s ++ findAll matchPhone3 s)
  ).map String.mk

/-- The accumulator of the per-line loop of parse_text_manually: the three
fields the loop assigns. -/
structure ScanAcc where
  sender : Option String
  receiver : Option String
  status : Option String
deriving Repr, DecidableEq

/-- Status keyword detection of one line (the if/elif chain of the source):
"successful" wins over "failed" wins over "pending" inside a line; a line
with no keyword keeps the previous status. -/
def statusStep (st : Option String) (line : List Char) : Option String :=
  let ll := lowerL line
  if containsL ll "successful".data then some "Successful"
  else if containsL ll "failed".data then some "Failed"
  else if containsL ll "pending".data then some "Pending"
  else st

/-- Sender update of one loop iteration: a line containing "from" takes the
next line, stripped, unless that candidate carries a run of ten or more
digits. -/
def senderUpd (acc : ScanAcc) (rest : List (List Char)) : ScanAcc :=
  match rest with
  | next :: _ =>
    let cand := stripL next
    if hasRun10 cand then acc else { acc with sender := some (String.mk cand) }
  | [] => acc

/-- Receiver update of one loop iteration (same shape as the sender
update). -/
def recvUpd (acc : ScanAcc) (rest : List (List Char)) : ScanAcc :=
  match rest with
  | next :: _ =>
    let cand := stripL next
    if hasRun10 cand then acc
    else { acc with receiver := some (String.mk cand) }
  | [] => acc

/-- One iteration of the per-line loop: sender rule, receiver rule (a line
containing "to" but not "total"), then the status chain. -/
def scanStep (acc : ScanAcc) (line : List Char) (rest : List (List Char)) :
    ScanAcc :=
  let ll := lowerL line
  let acc1 := if containsL ll "from".data then senderUpd acc rest else acc
  let acc2 :=
    if containsL ll "to".data && !containsL ll "total".data
    then recvUpd acc1 rest else acc1
  { acc2 with status := statusStep acc2.status line }

/-- The whole per-line loop (index plus lookahead of the source becomes the
tail of the line list). -/
def lineScan : ScanAcc → List (List Char) → ScanAcc
  | acc, [] => acc
  | acc, l :: rest => lineScan (scanStep acc l rest) rest

/-- The status fold the per-line loop computes (status component only). -/
def statusFold (st : Option String) (ls : List (List Char)) : Option String :=
  ls.foldl statusStep st

/-- Payment-method vocabulary scan of the whole lowered text, first term
wins, stored in title case. -/
def methodDetect (s : List Char) : Option String :=
  let ls := lowerL s
  if containsL ls "jazzcash".data then some "Jazzcash"
  else if containsL ls "easypaisa".data then some "Easypaisa"
  else if containsL ls "ubl".data then some "Ubl"
  else if containsL ls "hbl".data then some "Hbl"
  else if containsL ls "bank".data then some "Bank"
  else if containsL ls "wallet".data then some "Wallet"
  else none

/-- The canonical structured record of the source (the dict literal at the
top of parse_text_manually). -/
structure PaymentData where
  transaction_id : Option String
  amount : Option String
  date : Option String
  sender : Option String
  receiver : Option String
  fee : Option String
  payment_method : Option String
  status : Option String
  phone_numbers : List String
  reference : Option String
  bank_info : Option String
  location : Option String
  all_text : String
deriving Repr, DecidableEq

/-- parse_text_manually of both source files (they are identical): regex
battery per field, phone findall union, per-line sender/receiver/status
loop, method vocabulary, with reference, bank_info and location never
assigned. -/
def parse_text_manually (text : String) : PaymentData :=
  let s := text.data
  let scan := lineScan ⟨none, none, none⟩ (splitNl s)
  { transaction_id := (tidSearch s).map String.mk
    amount := (amountSearch s).map (fun c => "Rs. " ++ String.mk c)
    date := (dateSearch s).map String.mk
    sender := scan.sender
    receiver := scan.receiver
    fee := (feeSearch s).map (fun c => "Rs. " ++ String.mk c)
    payment_method := methodDetect s
    status := scan.status
    phone_numbers := phonesOf s
    reference := none
    bank_info := none
    location := none
    all_text := text }

/-! ## JSON values and the extraction orchestrator

The Gemini vision adapter hands the upload route a Python mapping: either
the JSON object parsed verbatim out of the reply of the service, or one of
the sentinel shapes (empty mapping, an all_text mapping, an error mapping).
The route inspects it with Python truthiness. -/

/-- JSON-ish Python values as the orchestrator and the synthesizer see
them. -/
inductive JVal where
  | null : JVal
  | jstr : String → JVal
  | jnum : Int → JVal
  | jbool : Bool → JVal
  | jarr : List JVal → JVal

/-- A Python dict with string keys (keys unique, insertion order kept). -/
abbrev JObj : Type := List (String × JVal)

/-- Python dict .get with default None. -/
def jget : JObj → String → JVal
  | [], _ => .null
  | (k', v) :: rest, k => if k' = k then v else jget rest k

/-- Python dict .get with an explicit default: the stored value is returned
whenever the key is present, even if the value is None or empty. -/
def jgetD : JObj → String → JVal → JVal
  | [], _, d => d
  | (k', v) :: rest, k, d => if k' = k then v else jgetD rest k d

/-- Key membership of a dict. -/
def jhasKey : JObj → String → Bool
  | [], _ => false
  | (k', _) :: rest, k => k' = k || jhasKey rest k

/-- Python truthiness of a value. -/
def jtruthy : JVal → Bool
  | .null => false
  | .jstr s => !s.isEmpty
  | .jnum n => n != 0
  | .jbool b => b
  | .jarr xs => !xs.isEmpty

/-- Python len() of a value; none models a TypeError being raised. -/
def jlen : JVal → Option Nat
  | .jstr s => some s.length
  | .jarr xs => some xs.length
  | _ => none

/-- Python indexing of a value; none models TypeError or IndexError. -/
def jindex : JVal → Nat → Option JVal
  | .jarr xs, i => xs.get? i
  | .jstr s, i => (s.data.get? i).map (fun c => JVal.jstr (String.mk [c]))
  | _, _ => none

/-- The fixed key set of the canonical record, in the dict order of the
source. -/
def fixedKeys : List String :=
  ["transaction_id", "amount", "date", "sender", "receiver", "fee",
   "payment_method", "status", "phone_numbers", "reference", "bank_info",
   "location", "all_text"]

/-- Optional string to JSON value. -/
def optJ : Option String → JVal
  | none => .null
  | some s => .jstr s

/-- The dict parse_text_manually returns, as the upload route serialises
it. -/
def recordToJObj (d : PaymentData) : JObj :=
  [("transaction_id", optJ d.transaction_id),
   ("amount", optJ d.amount),
   ("date", optJ d.date),
   ("sender", optJ d.sender),
   ("receiver", optJ d.receiver),
   ("fee", optJ d.fee),
   ("payment_method", optJ d.payment_method),
   ("status", optJ d.status),
   ("phone_numbers", .jarr (d.phone_numbers.map JVal.jstr)),
   ("reference", optJ d.reference),
   ("bank_info", optJ d.bank_info),
   ("location", optJ d.location),
   ("all_text", .jstr d.all_text)]

/-- The extraction decision of the upload route of
complete_panel_with_generation.py: try the vision result first when the
service is configured, accept it only when the mapping is truthy, carries no
truthy error value and has a truthy all_text value; otherwise, and also when
the chosen data still has no truthy all_text, fall back to OCR plus
parse_text_manually.  The external calls are modelled by their results
(geminiResult for the mapping the vision adapter returned, tesseractText for
the OCR text); the method tag "gemini" is the vision path and "tesseract"
the text-recognition path of the spec. -/
def upload_extract (geminiAvailable : Bool) (geminiResult : JObj)
    (tesseractText : String) : JObj × String :=
  let step1 : JObj × String :=
    if geminiAvailable then
      if !geminiResult.isEmpty && !jtruthy (jget geminiResult "error")
          && jtruthy (jget geminiResult "all_text")
      then (geminiResult, "gemini")
      else ([], "tesseract")
    else ([], "tesseract")
  if jtruthy (jget step1.1 "all_text") then step1
  else (recordToJObj (parse_text_manually tesseractText), "tesseract")

/-! ## Image preprocessor

preprocess_image_for_ocr of complete_panel_with_generation.py.  PIL is
external: decoding and the three enhancement steps are parameters, each
returning none when the corresponding PIL call would raise.  The except
handler of the source re-opens the raw bytes, so an undecodable buffer makes
the handler itself raise, modelled by the error result. -/
def preprocess_image_for_ocr (decode : List Nat → Option Nat)
    (grayscale enhanceContrast enhanceSharpness : Nat → Option Nat)
    (image_data : List Nat) : Except Unit Nat :=
  match (((decode image_data).bind grayscale).bind enhanceContrast).bind
      enhanceSharpness with
  | some img => .ok img
  | none =>
    match decode image_data with
    | some orig => .ok orig
    | none => .error ()

/-! ## Receipt synthesizer -/

/-- Python str.lower of a whole string (ASCII). -/
def strLower (s : String) : String := String.mk (lowerL s.data)

/-- Python str.title (ASCII): uppercase a letter that follows a non-letter,
lowercase the rest. -/
def pyTitleAux : Bool → List Char → List Char
  | _, [] => []
  | prevAlpha, c :: cs =>
    (if prevAlpha then c.toLower else c.toUpper) :: pyTitleAux c.isAlpha cs

/-- Python str.title on strings. -/
def pyTitle (s : String) : String := String.mk (pyTitleAux false s.data)

mutual
/-- Python str() / f-string rendering of a value (never raises).  List
rendering uses repr of the elements; quote escaping inside reprs is not
modelled (no claim exercises it). -/
def pyStr : JVal → String
  | .null => "None"
  | .jstr s => s
  | .jnum n => toString n
  | .jbool b => if b then "True" else "False"
  | .jarr xs => "[" ++ pyStrList xs ++ "]"

def pyRepr : JVal → String
  | .jstr s => "'" ++ s ++ "'"
  | v => pyStr v

def pyStrList : List JVal → String
  | [] => ""
  | [x] => pyRepr x
  | x :: y :: xs => pyRepr x ++ ", " ++ pyStrList (y :: xs)
end

/-- PIL draw.text accepts a str and raises TypeError on anything else
(None included); none models the raised exception. -/
def toText : JVal → Option String
  | .jstr s => some s
  | _ => none

/-- The rendering result of generate_new_screenshot: the fixed canvas, the
two gradient colors the template selected, and the text strings drawn onto
the canvas, in drawing order.  PNG encoding and pixel geometry are external
to this model; a canvas value stands for the successfully encoded 400 by 600
PNG of the source. -/
structure Canvas where
  width : Nat
  height : Nat
  topColor : Nat × Nat × Nat
  bottomColor : Nat × Nat × Nat
  texts : List String
deriving Repr, DecidableEq

/-- generate_new_screenshot of complete_panel_with_generation.py.  The
record is the edited data dict; template_type is the template selector; now
is the timestamp string datetime.now().strftime would produce.  The result
is none exactly when the drawing code raises and the except handler of the
source returns None (the defined failure signal). -/
def generate_new_screenshot (edited_data : JObj) (template_type : String)
    (now : String) : Option Canvas := do
  let (color1, color2) :=
    if strLower template_type = "jazzcash"
    then ((255, 165, 0), (255, 140, 0))
    else ((34, 139, 34), (0, 100, 0))
  let status := jgetD edited_data "status" (.jstr "Transaction Successful")
  let statusText ← toText status
  let tid := jgetD edited_data "transaction_id" (.jstr "")
  let tidTexts := if jtruthy tid then ["TID: " ++ pyStr tid] else []
  let date := jgetD edited_data "date" (.jstr now)
  let dateText ← toText date
  let amount := jgetD edited_data "amount" (.jstr "Rs. 0.00")
  let amountText ← toText amount
  let method := jgetD edited_data "payment_method" (.jstr "QR Payment")
  let methodText ← toText method
  let fee := jgetD edited_data "fee" (.jstr "Rs. 0.00")
  let feeText ← toText fee
  let receiver := jgetD edited_data "receiver" (.jstr "Receiver Name")
  let phones := jgetD edited_data "phone_numbers" (.jarr [])
  let receiverPhone ←
    if jtruthy phones then jindex phones 0 else pure (JVal.jstr "")
  let receiverText ← toText receiver
  let receiverPhoneTexts ←
    if jtruthy receiverPhone then do
      let t ← toText receiverPhone
      pure [t]
    else pure ([] : List String)
  let sender := jgetD edited_data "sender" (.jstr "Sender Name")
  let phonesLen ← jlen phones
  let senderPhone ←
    if phonesLen > 1 then jindex phones 1
    else if jtruthy phones then jindex phones 0
    else pure (JVal.jstr "")
  let senderText ← toText sender
  let senderPhoneTexts ←
    if jtruthy senderPhone then do
      let t ← toText senderPhone
      pure [t]
    else pure ([] : List String)
  let brand := if !template_type.isEmpty then pyTitle template_type
               else "Payment App"
  pure
    { width := 400
      height := 600
      topColor := color1
      bottomColor := color2
      texts := [statusText] ++ tidTexts
        ++ [dateText, amountText, methodText, "Fee", feeText, "To",
            receiverText] ++ receiverPhoneTexts
        ++ ["From", senderText] ++ senderPhoneTexts
        ++ ["Securely paid via " ++ brand] }

/-! ## Helper lemmas -/

theorem startsWithL_iff (pat s : List Char) :
    startsWithL s pat = true ↔ ∃ r, s = pat ++ r := by
  induction pat generalizing s with
  | nil =>
    simp only [startsWithL, List.nil_append]
    exact iff_of_true trivial ⟨s, rfl⟩
  | cons p ps ih =>
    cases s with
    | nil =>
      simp only [startsWithL, List.cons_append]
      constructor
      · intro h; cases h
      · rintro ⟨r, h⟩; cases h
    | cons c cs =>
      simp only [startsWithL, Bool.and_eq_true, decide_eq_true_eq, ih,
        List.cons_append]
      constructor
      · rintro ⟨rfl, r, rfl⟩; exact ⟨r, rfl⟩
      · rintro ⟨r, h⟩
        injection h with h1 h2
        exact ⟨h1, r, h2⟩

theorem containsL_iff (pat s : List Char) :
    containsL s pat = true ↔ ∃ a b, s = a ++ pat ++ b := by
  induction s with
  | nil =>
    simp only [containsL, List.isEmpty_iff]
    constructor
    · rintro rfl; exact ⟨[], [], rfl⟩
    · rintro ⟨a, b, h⟩
      rcases List.append_eq_nil.mp h.symm with ⟨h1, h2⟩
      exact (List.append_eq_nil.mp h1).2
  | cons c cs ih =>
    simp only [containsL, Bool.or_eq_true, startsWithL_iff, ih]
    constructor
    · rintro (⟨r, hr⟩ | ⟨a, b, hab⟩)
      · exact ⟨[], r, by simpa using hr⟩
      · exact ⟨c :: a, b, by simp [hab]⟩
    · rintro ⟨a, b, h⟩
      cases a with
      | nil => exact Or.inl ⟨b, by simpa using h⟩
      | cons a0 as =>
        injection h with h1 h2
        exact Or.inr ⟨as, b, h2⟩

theorem containsL_append_right (s p q : List Char)
    (h : containsL s (p ++ q) = true) : containsL s q = true := by
  rcases (containsL_iff (p ++ q) s).mp h with ⟨a, b, rfl⟩
  exact (containsL_iff q _).mpr ⟨a ++ p, b, by simp⟩

theorem contains_successful_of_unsuccessful (l : List Char)
    (h : containsL l "unsuccessful".data = true) :
    containsL l "successful".data = true := by
  have he : "unsuccessful".data = "un".data ++ "successful".data := by decide
  exact containsL_append_right l "un".data "successful".data (he ▸ h)

theorem senderUpd_status (a : ScanAcc) (rest : List (List Char)) :
    (senderUpd a rest).status = a.status := by
  cases rest with
  | nil => rfl
  | cons n ns =>
    simp only [senderUpd]
    split <;> rfl

theorem recvUpd_status (a : ScanAcc) (rest : List (List Char)) :
    (recvUpd a rest).status = a.status := by
  cases rest with
  | nil => rfl
  | cons n ns =>
    simp only [recvUpd]
    split <;> rfl

theorem scanStep_status (acc : ScanAcc) (line : List Char)
    (rest : List (List Char)) :
    (scanStep acc line rest).status = statusStep acc.status line := by
  unfold scanStep
  simp only [apply_ite ScanAcc.status, senderUpd_status, recvUpd_status,
    ite_self]

theorem lineScan_status (acc : ScanAcc) (ls : List (List Char)) :
    (lineScan acc ls).status = statusFold acc.status ls := by
  induction ls generalizing acc with
  | nil => rfl
  | cons l rest ih =>
    simp only [lineScan, statusFold, List.foldl_cons]
    rw [ih, scanStep_status]
    rfl

theorem statusFold_keepS (B : List (List Char))
    (h : ∀ l ∈ B, containsL (lowerL l) "failed".data = false ∧
         containsL (lowerL l) "pending".data = false) :
    statusFold (some "Successful") B = some "Successful" := by
  induction B with
  | nil => rfl
  | cons l rest ih =>
    have hl := h l (List.mem_cons_self l rest)
    have hstep : statusStep (some "Successful") l = some "Successful" := by
      unfold statusStep
      by_cases hs : containsL (lowerL l) "successful".data = true
      · simp [hs]
      · simp [hs, hl.1, hl.2]
    simp only [statusFold, List.foldl_cons, hstep]
    exact ih (fun l' hm => h l' (List.mem_cons_of_mem l hm))

theorem litCI_append (p q s r : List Char)
    (h : litCI (p ++ q) s = some r) :
    ∃ m, litCI p s = some m ∧ litCI q m = some r := by
  induction p generalizing s with
  | nil => exact ⟨s, rfl, h⟩
  | cons k ks ih =>
    cases s with
    | nil => simp [litCI] at h
    | cons c cs =>
      rw [List.cons_append, litCI] at h
      rw [litCI]
      split at h
      · obtain ⟨m, h1, h2⟩ := ih cs h
        rename_i hci
        rw [if_pos hci]
        exact ⟨m, h1, h2⟩
      · cases h

theorem eChar_props (c : Char) (h : ciMatch 'e' c = true) :
    isColonWs c = false ∧ c.isAlphanum = true := by
  rw [ciMatch, show upperTwin 'e' = 'E' from rfl] at h
  simp only [Bool.or_eq_true, decide_eq_true_eq] at h
  rcases h with rfl | rfl <;> exact ⟨rfl, rfl⟩

theorem capAlnum_alnum_head (c : Char) (cs : List Char)
    (h1 : isColonWs c = false) (h2 : c.isAlphanum = true) :
    ∃ r, capAlnum (c :: cs) = some r := by
  simp [capAlnum, List.dropWhile_cons, h1, List.takeWhile_cons, h2]

theorem matchRef_of_matchReference (s cap : List Char)
    (h : matchReference s = some cap) : ∃ r, matchRef s = some r := by
  rw [matchReference] at h
  cases hlit : litCI "reference".data s with
  | none => rw [hlit] at h; cases h
  | some m =>
    have hsplit : litCI ("ref".data ++ "erence".data) s = some m := by
      rw [show ("ref".data ++ "erence".data) = "reference".data from by decide]
      exact hlit
    obtain ⟨m1, hm1, hm2⟩ := litCI_append "ref".data "erence".data s m hsplit
    cases m1 with
    | nil => rw [show ("erence".data) = 'e' :: "rence".data from rfl, litCI] at hm2; cases hm2
    | cons c cs =>
      rw [show ("erence".data) = 'e' :: "rence".data from rfl, litCI] at hm2
      have hci : ciMatch 'e' c = true := by
        by_contra hne
        rw [if_neg (by simpa using hne)] at hm2
        cases hm2
      obtain ⟨hcw, hca⟩ := eChar_props c hci
      obtain ⟨r, hr⟩ := capAlnum_alnum_head c cs hcw hca
      exact ⟨r, by rw [matchRef, hm1, Option.some_bind, hr]⟩

theorem searchO_reference_of_ref (s : List Char)
    (h : searchO matchRef s = none) : searchO matchReference s = none := by
  induction s with
  | nil => rfl
  | cons c cs ih =>
    rw [searchO] at h ⊢
    cases hm : matchRef (c :: cs) with
    | some r => rw [hm] at h; cases h
    | none =>
      rw [hm] at h
      cases hr : matchReference (c :: cs) with
      | some cap =>
        obtain ⟨r, hr2⟩ := matchRef_of_matchReference _ _ hr
        rw [hm] at hr2; cases hr2
      | none => exact ih h

/-! ## Claims -/

/-- C1 counterexample: an accepted vision mapping is returned verbatim by
the upload route; a reply carrying an unknown key keeps that key in the
returned record and the canonical keys stay absent, contradicting the
claimed fixed-key invariant on the vision path. -/
theorem claim_C1_counterexample :
    (upload_extract true
      [("all_text", JVal.jstr "hello"), ("extra_key", JVal.jstr "x")] "").2
      = "gemini" ∧
    jhasKey (upload_extract true
      [("all_text", JVal.jstr "hello"), ("extra_key", JVal.jstr "x")] "").1
      "extra_key" = true ∧
    jhasKey (upload_extract true
      [("all_text", JVal.jstr "hello"), ("extra_key", JVal.jstr "x")] "").1
      "transaction_id" = false :=
  ⟨rfl, rfl, rfl⟩

/-- C1 amended: an accepted vision result is passed through verbatim (no
key filtering and no defaulting happen in the orchestrator); the fixed
thirteen-key set is guaranteed only on the text-recognition fallback path,
whose record always carries exactly the canonical keys. -/
theorem claim_C1_amended :
    (∀ (g : JObj) (t : String),
      (!g.isEmpty && !jtruthy (jget g "error")
        && jtruthy (jget g "all_text")) = true →
      upload_extract true g t = (g, "gemini")) ∧
    (∀ t : String,
      (recordToJObj (parse_text_manually t)).map Prod.fst = fixedKeys) := by
  constructor
  · intro g t hacc
    have hat : jtruthy (jget g "all_text") = true := by
      simp only [Bool.and_eq_true] at hacc
      exact hacc.2
    unfold upload_extract
    rw [if_pos rfl, if_pos hacc]
    rw [if_pos hat]
  · intro t
    rfl

/-- C1 amended, witness instance. -/
theorem claim_C1_amended_witness :
    upload_extract true [("all_text", JVal.jstr "x")] ""
      = ([("all_text", JVal.jstr "x")], "gemini") ∧
    (recordToJObj (parse_text_manually "")).map Prod.fst = fixedKeys :=
  ⟨claim_C1_amended.1 [("all_text", JVal.jstr "x")] "" (by decide),
   claim_C1_amended.2 ""⟩

/-- C2 counterexample: the text holding both literal numbers produces THREE
distinct phone entries, not two; the bare eleven-digit pattern also captures
the prefix 92300123456 out of the twelve-digit run of the international
form. -/
theorem claim_C2_counterexample :
    containsL ("+923001234567\n03001234567".data) ("+923001234567".data)
      = true ∧
    containsL ("+923001234567\n03001234567".data) ("03001234567".data)
      = true ∧
    (parse_text_manually "+923001234567\n03001234567").phone_numbers.length
      = 3 ∧
    (parse_text_manually "+923001234567\n03001234567").phone_numbers.Nodup :=
  ⟨by decide, by decide, by decide, by decide⟩

/-- C2 amended: for the canonical input holding both literal numbers, the
phone collection has exactly three distinct entries, deduplicated by exact
string match: the two literal strings plus 92300123456, the eleven-digit
prefix the bare-digit pattern extracts from the international form. -/
theorem claim_C2_amended :
    "+923001234567"
      ∈ (parse_text_manually "+923001234567\n03001234567").phone_numbers ∧
    "03001234567"
      ∈ (parse_text_manually "+923001234567\n03001234567").phone_numbers ∧
    "92300123456"
      ∈ (parse_text_manually "+923001234567\n03001234567").phone_numbers ∧
    (parse_text_manually "+923001234567\n03001234567").phone_numbers.length
      = 3 ∧
    (parse_text_manually "+923001234567\n03001234567").phone_numbers.Nodup :=
  ⟨by decide, by decide, by decide, by decide, by decide⟩

/-- C3 counterexample: a vision mapping carrying an error key with a falsy
(empty) value and a truthy all_text is ACCEPTED by the upload route (Python
truthiness, not key presence, is checked), so the result is the vision
mapping tagged gemini, not the text-recognition fallback. -/
theorem claim_C3_counterexample :
    jhasKey [("error", JVal.jstr ""), ("all_text", JVal.jstr "x")] "error"
      = true ∧
    upload_extract true [("error", JVal.jstr ""), ("all_text", JVal.jstr "x")]
      "" = ([("error", JVal.jstr ""), ("all_text", JVal.jstr "x")], "gemini") :=
  ⟨rfl, rfl⟩

/-- C3 amended: the orchestrator never raises (it is a total function of
the adapter results); whenever the vision adapter throws internally (its
catch-all returns a single-key error mapping) or the returned mapping
carries a TRUTHY error value or lacks a truthy all_text value, the result
is exactly the Preprocessor, Text Recognition, Field Parser path result
tagged with the text-recognition method. -/
theorem claim_C3_amended :
    (∀ (msg : String) (t : String),
      upload_extract true [("error", JVal.jstr msg)] t
        = (recordToJObj (parse_text_manually t), "tesseract")) ∧
    (∀ (g : JObj) (t : String),
      jtruthy (jget g "error") = true ∨ jtruthy (jget g "all_text") = false →
      upload_extract true g t
        = (recordToJObj (parse_text_manually t), "tesseract")) := by
  constructor
  · intro msg t
    have h1 : jget [("error", JVal.jstr msg)] "all_text" = JVal.null := rfl
    unfold upload_extract
    rw [if_pos rfl, h1]
    simp [jtruthy, jget]
  · intro g t h
    unfold upload_extract
    rw [if_pos rfl]
    rcases h with h | h
    · rw [h]
      simp [jtruthy, jget]
    · rw [h]
      simp [jtruthy, jget]

/-- C3 amended, witness instance. -/
theorem claim_C3_amended_witness :
    upload_extract true [("error", JVal.jstr "boom"), ("all_text", JVal.jstr "x")]
      "" = (recordToJObj (parse_text_manually ""), "tesseract") :=
  claim_C3_amended.2 [("error", JVal.jstr "boom"), ("all_text", JVal.jstr "x")]
    "" (Or.inl (by decide))

/-- C4 counterexample: on a buffer the decoder cannot parse, the except
handler of preprocess_image_for_ocr re-opens the same bytes and itself
raises, so the preprocessor throws out to its caller instead of degrading. -/
theorem claim_C4_counterexample :
    preprocess_image_for_ocr (fun _ => none) (fun i => some i)
      (fun i => some i) (fun i => some i) [] = Except.error () :=
  rfl

/-- C4 amended: for every buffer the decoder CAN parse, the preprocessor
never throws, and whenever any enhancement step fails it returns the
original decoded image unmodified; only undecodable buffers make it raise. -/
theorem claim_C4_amended (decode : List Nat → Option Nat)
    (grayscale enhanceContrast enhanceSharpness : Nat → Option Nat)
    (image_data : List Nat) (img : Nat)
    (hdec : decode image_data = some img) :
    (∃ r, preprocess_image_for_ocr decode grayscale enhanceContrast
        enhanceSharpness image_data = Except.ok r) ∧
    (((grayscale img).bind enhanceContrast).bind enhanceSharpness = none →
      preprocess_image_for_ocr decode grayscale enhanceContrast
        enhanceSharpness image_data = Except.ok img) := by
  have hkey : preprocess_image_for_ocr decode grayscale enhanceContrast
      enhanceSharpness image_data
      = match ((grayscale img).bind enhanceContrast).bind enhanceSharpness with
        | some r => Except.ok r
        | none => Except.ok img := by
    unfold preprocess_image_for_ocr
    rw [hdec]
    simp only [Option.some_bind]
  rw [hkey]
  refine ⟨?_, fun hn => by rw [hn]⟩
  cases ((grayscale img).bind enhanceContrast).bind enhanceSharpness with
  | some r => exact ⟨r, rfl⟩
  | none => exact ⟨img, rfl⟩

/-- C4 amended, witness instance. -/
theorem claim_C4_amended_witness :
    preprocess_image_for_ocr (fun _ => some 7) (fun _ => none)
      (fun i => some i) (fun i => some i) [] = Except.ok 7 :=
  (claim_C4_amended (fun _ => some 7) (fun _ => none) (fun i => some i)
    (fun i => some i) [] 7 rfl).2 rfl

/-- C5 counterexample: the amount battery returns the LEFTMOST match, so a
text containing Rs. 1,234.50 after an earlier currency mention yields a
different amount. -/
theorem claim_C5_counterexample :
    containsL ("Rs. 2 Rs. 1,234.50".data) ("Rs. 1,234.50".data) = true ∧
    (parse_text_manually "Rs. 2 Rs. 1,234.50").amount = some "Rs. 2" ∧
    (parse_text_manually "Rs. 2 Rs. 1,234.50").amount
      ≠ some "Rs. 1,234.50" :=
  ⟨by decide, by decide, by decide⟩

/-- C5 amended: for every text that BEGINS with Rs. 1,234.50 (so that this
occurrence is the leftmost amount match) and does not continue with a
further digit, the Field Parser yields amount Rs. 1,234.50, the captured
numeric text being re-prefixed with the Rs. marker. -/
theorem claim_C5_amended (s : List Char)
    (h : s.takeWhile Char.isDigit = []) :
    (parse_text_manually (String.mk ("Rs. 1,234.50".data ++ s))).amount
      = some "Rs. 1,234.50" := by
  have key : (parse_text_manually (String.mk ("Rs. 1,234.50".data ++ s))).amount
      = some ("Rs. " ++ String.mk
          ('1' :: ',' :: '2' :: '3' :: '4' :: '.' :: '5' :: '0'
            :: s.takeWhile Char.isDigit)) := rfl
  rw [key, h]
  decide

/-- C5 amended, witness instance. -/
theorem claim_C5_amended_witness :
    (parse_text_manually (String.mk ("Rs. 1,234.50".data ++ " sent".data))).amount
      = some "Rs. 1,234.50" :=
  claim_C5_amended (" sent".data) (by decide)

/-- C6: a line reading Total Amount To Pay triggers no update at all in the
per-line loop (the total exclusion), in particular it never sets receiver;
and the two-line text To then Bilal Store sets receiver to Bilal Store. -/
theorem claim_C6 :
    (∀ (acc : ScanAcc) (rest : List (List Char)),
      scanStep acc ("Total Amount To Pay".data) rest = acc) ∧
    (parse_text_manually "Total Amount To Pay\nBilal Store").receiver
      = none ∧
    (parse_text_manually "To\nBilal Store").receiver = some "Bilal Store" :=
  ⟨fun _ _ => rfl, by decide, by decide⟩

/-- C7: on an empty synthesis record with the jazzcash template, the
synthesizer succeeds with the fixed 400 by 600 canvas (standing for the
encoded PNG) and the four documented default placeholder strings are among
the drawn texts, for every current-timestamp string. -/
theorem claim_C7 (now : String) :
    ∃ c : Canvas, generate_new_screenshot [] "jazzcash" now = some c ∧
      c.width = 400 ∧ c.height = 600 ∧
      "Transaction Successful" ∈ c.texts ∧ "Rs. 0.00" ∈ c.texts ∧
      "Receiver Name" ∈ c.texts ∧ "Sender Name" ∈ c.texts := by
  refine ⟨_, rfl, rfl, rfl, ?_, ?_, ?_, ?_⟩ <;> simp

/-- C8: whenever some line of the input contains "unsuccessful"
(case-insensitively) and no later line contains the keyword failed or
pending, the parser reports status Successful, because the matcher looks
for the substring successful anywhere inside the line. -/
theorem claim_C8 (text : String) (i : Nat)
    (h : i < (splitNl text.data).length)
    (hu : containsL (lowerL ((splitNl text.data).get ⟨i, h⟩))
          "unsuccessful".data = true)
    (hp : ∀ l ∈ (splitNl text.data).drop (i + 1),
          containsL (lowerL l) "failed".data = false ∧
          containsL (lowerL l) "pending".data = false) :
    (parse_text_manually text).status = some "Successful" := by
  have hstat : (parse_text_manually text).status
      = statusFold none (splitNl text.data) := by
    show (lineScan ⟨none, none, none⟩ (splitNl text.data)).status = _
    rw [lineScan_status]
  rw [hstat]
  have hdecomp : splitNl text.data
      = (splitNl text.data).take i
        ++ (splitNl text.data).get ⟨i, h⟩
          :: (splitNl text.data).drop (i + 1) := by
    conv_lhs => rw [← List.take_append_drop i (splitNl text.data)]
    rw [List.drop_eq_getElem_cons h]
    simp [List.get_eq_getElem]
  rw [hdecomp]
  show List.foldl statusStep none _ = _
  rw [List.foldl_append, List.foldl_cons]
  have hstep : statusStep
      (List.foldl statusStep none ((splitNl text.data).take i))
      ((splitNl text.data).get ⟨i, h⟩) = some "Successful" := by
    unfold statusStep
    rw [if_pos (contains_successful_of_unsuccessful _ hu)]
  rw [hstep]
  exact statusFold_keepS _ hp

/-- C8, witness instance. -/
theorem claim_C8_witness :
    (parse_text_manually "Payment Unsuccessful").status = some "Successful" :=
  claim_C8 "Payment Unsuccessful" 0 (by decide) (by decide) (by decide)

/-- C9: on the text Reference: ABC123 (no earlier-priority marker matches),
the transaction id comes out as erence, not ABC123: the Ref pattern matches
inside the word Reference and captures the rest of that word, even though
the Reference pattern alone would have captured ABC123; and in general the
fourth pattern can never fire, since every text the Reference pattern
matches is already matched by the Ref pattern. -/
theorem claim_C9 :
    (parse_text_manually "Reference: ABC123").transaction_id
      = some "erence" ∧
    searchO matchReference ("Reference: ABC123".data) = some "ABC123".data ∧
    (∀ s : List Char, searchO matchRef s = none →
      searchO matchReference s = none) :=
  ⟨by decide, by decide, searchO_reference_of_ref⟩

/-- C9, witness instance for the subsumption component. -/
theorem claim_C9_witness :
    searchO matchReference ("hello".data) = none :=
  claim_C9.2.2 ("hello".data) (by decide)

/-- C10: synthesizer defaults apply only to ABSENT keys: a status present
as the empty string is rendered as the empty string (the placeholder is not
drawn), while a date or amount present as None makes the drawing code
raise, which the handler absorbs into the defined no-image failure
signal. -/
theorem claim_C10 :
    generate_new_screenshot [("status", JVal.jstr "")] "jazzcash"
      "May 1, 2026 at 09:00"
      = some { width := 400, height := 600, topColor := (255, 165, 0),
               bottomColor := (255, 140, 0),
               texts := ["", "May 1, 2026 at 09:00", "Rs. 0.00", "QR Payment",
                         "Fee", "Rs. 0.00", "To", "Receiver Name", "From",
                         "Sender Name", "Securely paid via Jazzcash"] } ∧
    "Transaction Successful"
      ∉ ["", "May 1, 2026 at 09:00", "Rs. 0.00", "QR Payment", "Fee",
          "Rs. 0.00", "To", "Receiver Name", "From", "Sender Name",
          "Securely paid via Jazzcash"] ∧
    (∀ now, generate_new_screenshot [("date", JVal.null)] "jazzcash" now
      = none) ∧
    (∀ now, generate_new_screenshot [("amount", JVal.null)] "jazzcash" now
      = none) :=
  ⟨rfl, by decide, fun _ => rfl, fun _ => rfl⟩
